import Mathlib

/-!
Verification of the X commenter bot (`x_commenter_bot.py`).

The Python source is shallowly embedded: strings are `List Char`, pandas
data frames are `Table` (a header list plus rows of optional cells, where
`none` models a NaN cell), and the effectful driver code is modelled by
explicit environments (login outcome, per-attempt interaction outcomes,
write-failure predicates) together with event traces.  Every definition is
translated from the source file; the few places where a pandas or Selenium
behaviour is idealised are noted in the accompanying doc comments.
-/

/-- Python strings, embedded as lists of characters. -/
abbrev Str := List Char

/-- The whitespace characters recognised by Python's `str.strip`
(space, tab, newline, carriage return, vertical tab, form feed). -/
def isPySpace (c : Char) : Bool := c ∈ [' ', '\t', '\n', '\r', Char.ofNat 11, Char.ofNat 12]

/-- Left part of Python `str.strip`: drop leading whitespace. -/
def lstrip (s : Str) : Str := s.dropWhile isPySpace

/-- Right part of Python `str.strip`: drop trailing whitespace. -/
def rstrip (s : Str) : Str := (s.reverse.dropWhile isPySpace).reverse

/-- Python `str.strip()`. -/
def pyStrip (s : Str) : Str := rstrip (lstrip s)

/-- Python's `pat in s` substring test. -/
def hasSub (pat : Str) : Str → Bool
  | [] => pat.isEmpty
  | c :: rest => pat.isPrefixOf (c :: rest) || hasSub pat rest

/-- ASCII lowering of one character, as Python `str.lower` acts on the
ASCII inputs this program manipulates. -/
def toLowerChar : Char → Char
  | 'A' => 'a' | 'B' => 'b' | 'C' => 'c' | 'D' => 'd' | 'E' => 'e' | 'F' => 'f'
  | 'G' => 'g' | 'H' => 'h' | 'I' => 'i' | 'J' => 'j' | 'K' => 'k' | 'L' => 'l'
  | 'M' => 'm' | 'N' => 'n' | 'O' => 'o' | 'P' => 'p' | 'Q' => 'q' | 'R' => 'r'
  | 'S' => 's' | 'T' => 't' | 'U' => 'u' | 'V' => 'v' | 'W' => 'w' | 'X' => 'x'
  | 'Y' => 'y' | 'Z' => 'z'
  | c => c

/-- ASCII raising of one character, as Python `str.upper` acts on the
ASCII inputs this program manipulates. -/
def toUpperChar : Char → Char
  | 'a' => 'A' | 'b' => 'B' | 'c' => 'C' | 'd' => 'D' | 'e' => 'E' | 'f' => 'F'
  | 'g' => 'G' | 'h' => 'H' | 'i' => 'I' | 'j' => 'J' | 'k' => 'K' | 'l' => 'L'
  | 'm' => 'M' | 'n' => 'N' | 'o' => 'O' | 'p' => 'P' | 'q' => 'Q' | 'r' => 'R'
  | 's' => 'S' | 't' => 'T' | 'u' => 'U' | 'v' => 'V' | 'w' => 'W' | 'x' => 'X'
  | 'y' => 'Y' | 'z' => 'Z'
  | c => c

/-- Python `str.lower()`. -/
def lowerStr (s : Str) : Str := s.map toLowerChar

/-- Python `str.upper()`. -/
def upperStr (s : Str) : Str := s.map toUpperChar

/-- Python `s.replace(a, b)` for a one-character pattern `a` and
one-character replacement `b`: replaces every occurrence. -/
def replaceChar (a b : Char) (s : Str) : Str := s.map (fun c => if c = a then b else c)

/-- Python `s.replace("  ", " ")`: one left-to-right pass replacing each
non-overlapping occurrence of two consecutive spaces by a single space
(`x_commenter_bot.py` line 339). -/
def replaceDoubleSpace : Str → Str
  | [] => []
  | [c] => [c]
  | c1 :: c2 :: rest =>
    if c1 = ' ' ∧ c2 = ' ' then ' ' :: replaceDoubleSpace rest
    else c1 :: replaceDoubleSpace (c2 :: rest)

/-- Embedding of `XCommentBot._normalize` (lines 330-342): strip, lowercase, replace
double spaces once, then map spaces and hyphens to underscores. -/
def _normalize (col : Str) : Str :=
  replaceChar '-' '_' (replaceChar ' ' '_' (replaceDoubleSpace (lowerStr (pyStrip col))))

theorem toLowerChar_space : toLowerChar ' ' = ' ' := rfl

theorem toLowerChar_eq_space_iff (c : Char) : toLowerChar c = ' ' ↔ c = ' ' := by
  unfold toLowerChar
  split <;> simp_all

theorem not_space_of_isPySpace_false {c : Char} (h : isPySpace c = false) : c ≠ ' ' := by
  intro hc
  subst hc
  simp [isPySpace] at h

theorem lstrip_cons_false (a : Char) (l : Str) (ha : isPySpace a = false) :
    lstrip (a :: l) = a :: l := by
  simp [lstrip, List.dropWhile, ha]

theorem rstrip_concat_false (l : Str) (b : Char) (hb : isPySpace b = false) :
    rstrip (l ++ [b]) = l ++ [b] := by
  simp [rstrip, List.reverse_append, List.dropWhile, hb]

theorem pyStrip_eq_self_ends (a : Char) (m : Str) (e : Char)
    (ha : isPySpace a = false) (he : isPySpace e = false) :
    pyStrip (a :: (m ++ [e])) = a :: (m ++ [e])  := by
  unfold pyStrip
  rw [lstrip_cons_false _ _ ha]
  have h := rstrip_concat_false (a :: m) e he
  simpa using h

theorem replaceDoubleSpace_cons_of_ne (c : Char) (l : Str) (hc : c ≠ ' ') :
    replaceDoubleSpace (c :: l) = c :: replaceDoubleSpace l := by
  cases l with
  | nil => rfl
  | cons b t => simp [replaceDoubleSpace, hc]

theorem replaceDoubleSpace_append_of_nospace (p l : Str)
    (hp : ∀ c ∈ p, c ≠ ' ') :
    replaceDoubleSpace (p ++ l) = p ++ replaceDoubleSpace l := by
  induction p with
  | nil => rfl
  | cons a t ih =>
    have ha : a ≠ ' ' := hp a (by simp)
    rw [List.cons_append, replaceDoubleSpace_cons_of_ne a (t ++ l) ha,
      ih (fun c hc => hp c (by simp [hc])), List.cons_append]

/-- Claim C8, counterexample: the headers `"a   b"` and `"a b"` differ only
in the length of one internal whitespace run, yet they normalize to the
distinct strings `"a__b"` and `"a_b"`, because `replace("  ", " ")` makes a
single non-overlapping pass rather than collapsing whole runs. -/
theorem c8_normalize_run_counterexample :
    _normalize "a   b".toList = "a__b".toList ∧
    _normalize "a b".toList = "a_b".toList ∧
    _normalize "a   b".toList ≠ _normalize "a b".toList := by
  refine ⟨by decide, by decide, by decide⟩

/-- Claim C8, amended: header normalization trims, lowercases, performs a
single left-to-right pass replacing each non-overlapping pair of
consecutive spaces by one space, then maps spaces and hyphens to
underscores.  Consequently two headers that differ only in an internal
separator of two spaces versus one space (between whitespace-free text)
normalize to the same string, though longer whitespace runs are not
collapsed to a single separator. -/
theorem c8_normalize_two_space_pair (p q : Str)
    (hp0 : p ≠ []) (hq0 : q ≠ [])
    (hp : ∀ c ∈ p, isPySpace c = false)
    (hq : ∀ c ∈ q, isPySpace c = false) :
    _normalize (p ++ ' ' :: ' ' :: q) = _normalize (p ++ ' ' :: q) := by
  obtain ⟨a, pt, rfl⟩ : ∃ a pt, p = a :: pt := by
    cases p with
    | nil => exact absurd rfl hp0
    | cons a pt => exact ⟨a, pt, rfl⟩
  obtain ⟨b, qt, rfl⟩ : ∃ b qt, q = b :: qt := by
    cases q with
    | nil => exact absurd rfl hq0
    | cons b qt => exact ⟨b, qt, rfl⟩
  rcases (b :: qt).eq_nil_or_concat' with hnil | ⟨L, e, hL⟩
  · exact absurd hnil (by simp)
  have ha : isPySpace a = false := hp a (by simp)
  have he : isPySpace e = false := by
    have : e ∈ b :: qt := by rw [hL]; simp
    exact hq e this
  -- strip is the identity on both headers
  have strip2 : pyStrip ((a :: pt) ++ ' ' :: ' ' :: (b :: qt))
      = (a :: pt) ++ ' ' :: ' ' :: (b :: qt) := by
    rw [hL]
    have h := pyStrip_eq_self_ends a (pt ++ ' ' :: ' ' :: L) e ha he
    simpa using h
  have strip1 : pyStrip ((a :: pt) ++ ' ' :: (b :: qt))
      = (a :: pt) ++ ' ' :: (b :: qt) := by
    rw [hL]
    have h := pyStrip_eq_self_ends a (pt ++ ' ' :: L) e ha he
    simpa using h
  -- lowering keeps the space structure
  have hPn : ∀ c ∈ lowerStr (a :: pt), c ≠ ' ' := by
    intro c hc
    rcases List.mem_map.1 hc with ⟨x, hx, rfl⟩
    intro hsp
    exact not_space_of_isPySpace_false (hp x hx) ((toLowerChar_eq_space_iff x).1 hsp)
  have hbne : toLowerChar b ≠ ' ' := by
    intro hsp
    exact not_space_of_isPySpace_false (hq b (by simp)) ((toLowerChar_eq_space_iff b).1 hsp)
  unfold _normalize
  rw [strip2, strip1]
  apply congrArg
  apply congrArg
  have low2 : lowerStr ((a :: pt) ++ ' ' :: ' ' :: (b :: qt))
      = lowerStr (a :: pt) ++ ' ' :: ' ' :: (toLowerChar b :: lowerStr qt) := by
    simp [lowerStr, toLowerChar_space]
  have low1 : lowerStr ((a :: pt) ++ ' ' :: (b :: qt))
      = lowerStr (a :: pt) ++ ' ' :: (toLowerChar b :: lowerStr qt) := by
    simp [lowerStr, toLowerChar_space]
  rw [low2, low1,
    replaceDoubleSpace_append_of_nospace _ _ hPn,
    replaceDoubleSpace_append_of_nospace _ _ hPn]
  apply congrArg
  have left2 : replaceDoubleSpace (' ' :: ' ' :: (toLowerChar b :: lowerStr qt))
      = ' ' :: replaceDoubleSpace (toLowerChar b :: lowerStr qt) := by
    simp [replaceDoubleSpace]
  have left1 : replaceDoubleSpace (' ' :: (toLowerChar b :: lowerStr qt))
      = ' ' :: replaceDoubleSpace (toLowerChar b :: lowerStr qt) := by
    simp [replaceDoubleSpace, hbne]
  rw [left2, left1]

/-- Witness for `c8_normalize_two_space_pair` at the headers
`"a  b"` and `"a b"`. -/
theorem c8_normalize_two_space_pair_witness :
    ("a".toList ≠ [] ∧ "b".toList ≠ [] ∧
      (∀ c ∈ "a".toList, isPySpace c = false) ∧
      (∀ c ∈ "b".toList, isPySpace c = false)) ∧
    _normalize ("a".toList ++ ' ' :: ' ' :: "b".toList)
      = _normalize ("a".toList ++ ' ' :: "b".toList) :=
  ⟨⟨by decide, by decide, by decide, by decide⟩,
    c8_normalize_two_space_pair "a".toList "b".toList
      (by decide) (by decide) (by decide) (by decide)⟩

/-- The comment-text sanitizer applied both when the spreadsheet is loaded
(`load_spreadsheet` lines 584-590) and again at the start of
`post_comment` (line 771), immediately before any injection strategy runs:
replace newlines by spaces, replace carriage returns by spaces, strip. -/
def sanitize_comment_text (c : Str) : Str :=
  pyStrip (replaceChar '\r' ' ' (replaceChar '\n' ' ' c))

theorem mem_of_mem_lstrip {x : Char} {s : Str} (h : x ∈ lstrip s) : x ∈ s := by
  induction s with
  | nil => simp [lstrip] at h
  | cons a t ih =>
    by_cases ha : isPySpace a
    · simp only [lstrip, List.dropWhile, ha] at h
      exact List.mem_cons_of_mem a (ih h)
    · simp only [lstrip, List.dropWhile, ha] at h
      simpa using h

theorem mem_of_mem_rstrip {x : Char} {s : Str} (h : x ∈ rstrip s) : x ∈ s := by
  unfold rstrip at h
  rw [List.mem_reverse] at h
  have := mem_of_mem_lstrip (s := s.reverse) h
  simpa using this

theorem mem_of_mem_pyStrip {x : Char} {s : Str} (h : x ∈ pyStrip s) : x ∈ s :=
  mem_of_mem_lstrip (mem_of_mem_rstrip h)

/-- Claim C9: the text handed to the platform's composer never contains a
newline or carriage return — each is replaced by a space and the result is
trimmed — and the sanitizer can genuinely change the text, so the submitted
text may differ from the input cell's text. -/
theorem c9_sanitized_no_line_breaks :
    (∀ c : Str, '\n' ∉ sanitize_comment_text c ∧ '\r' ∉ sanitize_comment_text c) ∧
    (∃ c : Str, sanitize_comment_text c ≠ c) := by
  constructor
  · intro c
    have key : ∀ x ∈ replaceChar '\r' ' ' (replaceChar '\n' ' ' c),
        x ≠ '\n' ∧ x ≠ '\r' := by
      intro x hx
      rcases List.mem_map.1 hx with ⟨y, hy, rfl⟩
      rcases List.mem_map.1 hy with ⟨z, _, rfl⟩
      constructor
      · by_cases hz : z = '\n'
        · simp [hz]
        · by_cases hz2 : z = '\r' <;> simp [hz, hz2]
      · by_cases hz : z = '\n'
        · simp [hz]
        · by_cases hz2 : z = '\r' <;> simp [hz, hz2]
    constructor
    · intro hmem
      exact (key '\n' (mem_of_mem_pyStrip hmem)).1 rfl
    · intro hmem
      exact (key '\r' (mem_of_mem_pyStrip hmem)).2 rfl
  · exact ⟨"a\nb".toList, by decide⟩

/-- Outcome of one interaction attempt inside `process_single_post`:
the attempt raised an exception with message `msg`, `post_comment`
returned `False`, or `post_comment` returned `True`. -/
inductive AttemptOutcome
  | raises (msg : Str)
  | postFails
  | postSucceeds
deriving DecidableEq

/-- The per-task result dict built by `process_single_post`
(lines 724-732); the `timestamp` field is omitted from the model. -/
structure SingleResult where
  post_number : Nat
  original_index : Nat
  url : Str
  comment : Str
  status : Str
  message : Str
deriving DecidableEq

/-- The initial result dict of `process_single_post` (lines 724-732),
including the 50-character truncation of the comment field. -/
def initialResult (url comment : Str) (post_number original_index : Nat) : SingleResult :=
  { post_number := post_number
    original_index := original_index
    url := url
    comment := if comment.length > 50 then comment.take 50 ++ "...".toList else comment
    status := "failed".toList
    message := [] }

def failAttemptMsg (n : Nat) : Str :=
  ("Failed to post comment (attempt ".toList ++ (Nat.repr n).toList) ++ ")".toList

def errorAttemptMsg (n : Nat) (m : Str) : Str :=
  (("Error on attempt ".toList ++ (Nat.repr n).toList) ++ ": ".toList) ++ m

def max_retries : Nat := 3

/-- The retry loop of `process_single_post` (lines 734-766), indexed by the
current attempt number and the remaining fuel (the loop runs
`range(max_retries)`).  Returns the final result together with the list of
backoff sleeps performed (in seconds) and the number of attempts made. -/
def attemptLoop (out : Nat → AttemptOutcome) :
    Nat → Nat → SingleResult → SingleResult × List Nat × Nat
  | _, 0, res => (res, [], 0)
  | attempt, fuel + 1, res =>
    match out attempt with
    | .postSucceeds =>
      ({ res with status := "success".toList,
                  message := "Comment posted successfully".toList }, [], 1)
    | .postFails =>
      let res2 := { res with message := failAttemptMsg (attempt + 1) }
      let r := attemptLoop out (attempt + 1) fuel res2
      (r.1, r.2.1, r.2.2 + 1)
    | .raises m =>
      let res2 := { res with message := errorAttemptMsg (attempt + 1) m }
      let r := attemptLoop out (attempt + 1) fuel res2
      if attempt < max_retries - 1 then (r.1, (2 ^ attempt) :: r.2.1, r.2.2 + 1)
      else (r.1, r.2.1, r.2.2 + 1)

/-- Embedding of `XCommentBot.process_single_post` (lines 722-766). -/
def process_single_post (out : Nat → AttemptOutcome) (url comment : Str)
    (post_number original_index : Nat) : SingleResult × List Nat × Nat :=
  attemptLoop out 0 max_retries (initialResult url comment post_number original_index)

/-- Claim C5: a task whose interaction always raises is attempted exactly
3 times with backoff sleeps of exactly 2^0 = 1 and 2^1 = 2 seconds after
the first two failed attempts (none after the third), yielding a single
failed result; a successful attempt stops retrying immediately (first or
second attempt succeeding gives 1 resp. 2 attempts and no sleep after the
successful one). -/
theorem c5_retry_bound (out : Nat → AttemptOutcome) (url comment : Str) (n i : Nat) :
    ((∀ k, ∃ m, out k = .raises m) →
      (process_single_post out url comment n i).2.2 = 3 ∧
      (process_single_post out url comment n i).2.1 = [1, 2] ∧
      (process_single_post out url comment n i).1.status = "failed".toList) ∧
    (out 0 = .postSucceeds →
      (process_single_post out url comment n i).2.2 = 1 ∧
      (process_single_post out url comment n i).2.1 = [] ∧
      (process_single_post out url comment n i).1.status = "success".toList) ∧
    (∀ m, out 0 = .raises m → out 1 = .postSucceeds →
      (process_single_post out url comment n i).2.2 = 2 ∧
      (process_single_post out url comment n i).2.1 = [1] ∧
      (process_single_post out url comment n i).1.status = "success".toList) := by
  refine ⟨?_, ?_, ?_⟩
  · intro h
    rcases h 0 with ⟨m0, e0⟩
    rcases h 1 with ⟨m1, e1⟩
    rcases h 2 with ⟨m2, e2⟩
    refine ⟨?_, ?_, ?_⟩ <;>
      simp [process_single_post, attemptLoop, e0, e1, e2, max_retries, initialResult]
  · intro h
    refine ⟨?_, ?_, ?_⟩ <;>
      simp [process_single_post, attemptLoop, h, max_retries, initialResult]
  · intro m h0 h1
    refine ⟨?_, ?_, ?_⟩ <;>
      simp [process_single_post, attemptLoop, h0, h1, max_retries, initialResult]

/-- Witness for `c5_retry_bound`: an always-raising outcome function, an
immediately succeeding one, and one succeeding at the second attempt. -/
theorem c5_retry_bound_witness :
    ((process_single_post (fun _ => .raises "x".toList) [] [] 1 0).2.2 = 3 ∧
      (process_single_post (fun _ => .raises "x".toList) [] [] 1 0).2.1 = [1, 2]) ∧
    ((process_single_post (fun _ => .postSucceeds) [] [] 1 0).2.2 = 1 ∧
      (process_single_post (fun _ => .postSucceeds) [] [] 1 0).2.1 = []) ∧
    ((process_single_post
        (fun k => if k = 0 then .raises "x".toList else .postSucceeds) [] [] 1 0).2.2 = 2 ∧
      (process_single_post
        (fun k => if k = 0 then .raises "x".toList else .postSucceeds) [] [] 1 0).2.1 = [1]) := by
  refine ⟨?_, ?_, ?_⟩
  · have h := (c5_retry_bound (fun _ => .raises "x".toList) [] [] 1 0).1
      (fun k => ⟨"x".toList, rfl⟩)
    exact ⟨h.1, h.2.1⟩
  · have h := (c5_retry_bound (fun _ => .postSucceeds) [] [] 1 0).2.1 rfl
    exact ⟨h.1, h.2.1⟩
  · have h := (c5_retry_bound
        (fun k => if k = 0 then .raises "x".toList else .postSucceeds) [] [] 1 0).2.2
      "x".toList rfl rfl
    exact ⟨h.1, h.2.1⟩

theorem attemptLoop_comment (out : Nat → AttemptOutcome) :
    ∀ (attempt fuel : Nat) (res : SingleResult),
      (attemptLoop out attempt fuel res).1.comment = res.comment := by
  intro attempt fuel
  induction fuel generalizing attempt with
  | zero => intro res; rfl
  | succ n ih =>
    intro res
    unfold attemptLoop
    cases hout : out attempt with
    | postSucceeds => rfl
    | postFails => simpa using ih (attempt + 1) _
    | raises m =>
      by_cases hlt : attempt < max_retries - 1 <;> simp [hlt, ih (attempt + 1)]

/-- Claim C10, amended: the `comment` field of every result record equals
the full comment when it has at most 50 characters, and otherwise equals
the first 50 characters followed by `"..."`; in particular a comment
longer than 53 characters is never stored in full (but a 53-character
comment that happens to end in `"..."` coincides with its own
truncation). -/
theorem c10_truncated_comment (out : Nat → AttemptOutcome) (url c : Str) (n i : Nat) :
    (c.length ≤ 50 → (process_single_post out url c n i).1.comment = c) ∧
    (c.length > 50 →
      (process_single_post out url c n i).1.comment = c.take 50 ++ "...".toList) ∧
    (c.length > 53 → (process_single_post out url c n i).1.comment ≠ c) := by
  have hcom : (process_single_post out url c n i).1.comment
      = (initialResult url c n i).comment := attemptLoop_comment out 0 max_retries _
  refine ⟨?_, ?_, ?_⟩
  · intro hle
    rw [hcom]
    simp [initialResult, Nat.not_lt.2 hle]
  · intro hgt
    rw [hcom]
    simp [initialResult, hgt]
  · intro hgt
    rw [hcom]
    have h50 : c.length > 50 := by omega
    simp only [initialResult, h50, if_pos]
    intro heq
    have hlen := congrArg List.length heq
    simp [List.length_take] at hlen
    omega

/-- Witness for `c10_truncated_comment` at a short, a long, and a very
long comment. -/
theorem c10_truncated_comment_witness :
    (process_single_post (fun _ => .postFails) [] "hi".toList 1 0).1.comment = "hi".toList ∧
    ((List.replicate 60 'a').length > 53 ∧
      (process_single_post (fun _ => .postFails) [] (List.replicate 60 'a') 1 0).1.comment
        ≠ List.replicate 60 'a') := by
  refine ⟨?_, by decide, ?_⟩
  · exact (c10_truncated_comment (fun _ => .postFails) [] "hi".toList 1 0).1 (by decide)
  · exact (c10_truncated_comment (fun _ => .postFails) [] (List.replicate 60 'a') 1 0).2.2
      (by simp)

/-- Claim C10, counterexample to the claim as stated: the 53-character
comment made of 50 `'a'`s followed by `"..."` is longer than 50
characters, yet its result record stores exactly the full comment text,
because the comment coincides with its own truncation. -/
theorem c10_full_text_stored_counterexample :
    (List.replicate 50 'a' ++ "...".toList).length > 50 ∧
    (process_single_post (fun _ => .postFails) [] (List.replicate 50 'a' ++ "...".toList) 1 0).1.comment
      = List.replicate 50 'a' ++ "...".toList := by
  constructor
  · decide
  · decide

/-- A spreadsheet cell; `none` models a pandas NaN. -/
abbrev Cell := Option Str

/-- Python `str(cell)` on a cell: a NaN renders as `"nan"`. -/
def strCell : Cell → Str
  | none => "nan".toList
  | some s => s

/-- The completed-status markers (`["Y", "YES", "TRUE", "1"]`). -/
def doneMarkers : List Str := ["Y".toList, "YES".toList, "TRUE".toList, "1".toList]

/-- The already-commented test of `load_spreadsheet` line 628:
`astype(str).str.upper().str.strip().isin(["Y","YES","TRUE","1"])`. -/
def isDoneLoadCell (v : Cell) : Bool := doneMarkers.contains (pyStrip (upperStr (strCell v)))

/-- The skip test of `process_posts` line 693:
`str(row[status_col]).strip().upper() in {"Y","YES","TRUE","1"}`. -/
def isDoneSkipCell (v : Cell) : Bool := doneMarkers.contains (upperStr (pyStrip (strCell v)))

/-- One unit of work from a filtered row: the original row index, the
standardized URL and comment, and the row's raw status cell (used by the
redundant skip test inside `process_posts`). -/
structure BotTask where
  rowIndex : Nat
  url : Str
  comment : Str
  statusCell : Cell
deriving DecidableEq

/-- Observable events of the task-processing loop: one task processed,
one task skipped, or one inter-task pacing sleep. -/
inductive PEvent
  | processed (rowIndex : Nat)
  | skipped (rowIndex : Nat)
  | paced
deriving DecidableEq

/-- The loop body of `XCommentBot.process_posts` (lines 687-718) with the
running `len(self.results)` counter made explicit: per task, skip if the
status cell already marks completion, otherwise process the task through
`process_single_post` and — only while `current_post < len(df)` — emit one
pacing sleep.  `total` is `len(df)`. -/
def process_posts_go (out : Nat → Nat → AttemptOutcome) (statusInDf : Bool) (total : Nat) :
    List BotTask → Nat → List SingleResult × List PEvent
  | [], _ => ([], [])
  | task :: rest, resultsCount =>
    if statusInDf && isDoneSkipCell task.statusCell then
      let r := process_posts_go out statusInDf total rest resultsCount
      (r.1, PEvent.skipped task.rowIndex :: r.2)
    else
      let current_post := resultsCount + 1
      let res := (process_single_post (out task.rowIndex) task.url task.comment
        current_post task.rowIndex).1
      let pacing : List PEvent := if current_post < total then [PEvent.paced] else []
      let r := process_posts_go out statusInDf total rest (resultsCount + 1)
      (res :: r.1, PEvent.processed task.rowIndex :: (pacing ++ r.2))

/-- Embedding of `XCommentBot.process_posts` (lines 679-720): `self.results` starts
empty in a run, and `len(df)` is the number of tasks. -/
def process_posts (out : Nat → Nat → AttemptOutcome) (statusInDf : Bool)
    (tasks : List BotTask) : List SingleResult × List PEvent :=
  process_posts_go out statusInDf tasks.length tasks 0

theorem process_posts_go_paced_count (out : Nat → Nat → AttemptOutcome)
    (statusInDf : Bool) (total : Nat) :
    ∀ (tasks : List BotTask) (rc : Nat),
      (∀ t ∈ tasks, statusInDf = true → isDoneSkipCell t.statusCell = false) →
      rc + tasks.length = total →
      (process_posts_go out statusInDf total tasks rc).2.countP (· == PEvent.paced)
        = tasks.length - 1 := by
  intro tasks
  induction tasks with
  | nil => intro rc _ _; simp [process_posts_go]
  | cons t rest ih =>
    intro rc hns hinv
    have hcond : (statusInDf && isDoneSkipCell t.statusCell) = false := by
      cases hs : statusInDf with
      | false => simp
      | true => simp [hns t (by simp) hs]
    simp only [process_posts_go, hcond, Bool.false_eq_true, if_false]
    cases rest with
    | nil =>
      have : ¬ (rc + 1 < total) := by simp at hinv; omega
      simp [this, process_posts_go]
    | cons t2 rest2 =>
      have hlt : rc + 1 < total := by simp at hinv; omega
      have ihr := ih (rc + 1)
        (fun x hx hs => hns x (by simp [hx]) hs) (by simp at hinv ⊢; omega)
      simp only [List.countP_cons, hlt, if_true, List.countP_append] at ihr ⊢
      simp [ihr, List.countP_cons]
      omega

theorem process_posts_go_last_not_paced (out : Nat → Nat → AttemptOutcome)
    (statusInDf : Bool) (total : Nat) :
    ∀ (tasks : List BotTask) (rc : Nat),
      (∀ t ∈ tasks, statusInDf = true → isDoneSkipCell t.statusCell = false) →
      rc + tasks.length = total →
      (process_posts_go out statusInDf total tasks rc).2.getLast? ≠ some PEvent.paced := by
  intro tasks
  induction tasks with
  | nil => intro rc _ _; simp [process_posts_go]
  | cons t rest ih =>
    intro rc hns hinv
    have hcond : (statusInDf && isDoneSkipCell t.statusCell) = false := by
      cases hs : statusInDf with
      | false => simp
      | true => simp [hns t (by simp) hs]
    simp only [process_posts_go, hcond, Bool.false_eq_true, if_false]
    cases rest with
    | nil =>
      have : ¬ (rc + 1 < total) := by simp at hinv; omega
      simp [this, process_posts_go]
    | cons t2 rest2 =>
      have hlt : rc + 1 < total := by simp at hinv; omega
      have ihr := ih (rc + 1)
        (fun x hx hs => hns x (by simp [hx]) hs) (by simp at hinv ⊢; omega)
      have hne : (process_posts_go out statusInDf total (t2 :: rest2) (rc + 1)).2 ≠ [] := by
        by_cases hc2 : (statusInDf && isDoneSkipCell t2.statusCell) = true <;>
          simp [process_posts_go, hc2]
      rw [show PEvent.processed t.rowIndex
            :: ((if rc + 1 < total then [PEvent.paced] else [])
              ++ (process_posts_go out statusInDf total (t2 :: rest2) (rc + 1)).2)
          = (PEvent.processed t.rowIndex
              :: (if rc + 1 < total then [PEvent.paced] else []))
            ++ (process_posts_go out statusInDf total (t2 :: rest2) (rc + 1)).2 by simp,
        List.getLast?_append_of_ne_nil _ hne]
      exact ihr

/-- Claim C6: for a task list of N tasks (none of which is re-skipped by
the in-loop status check — which is how `load_spreadsheet` hands them
over), the inter-task pacing sleep fires exactly N − 1 times, never
before the first task and never after the last task. -/
theorem c6_pacing_fires_n_minus_one (out : Nat → Nat → AttemptOutcome)
    (statusInDf : Bool) (tasks : List BotTask)
    (hns : ∀ t ∈ tasks, statusInDf = true → isDoneSkipCell t.statusCell = false) :
    (process_posts out statusInDf tasks).2.countP (· == PEvent.paced)
        = tasks.length - 1 ∧
    (process_posts out statusInDf tasks).2.head? ≠ some PEvent.paced ∧
    (process_posts out statusInDf tasks).2.getLast? ≠ some PEvent.paced := by
  refine ⟨process_posts_go_paced_count out statusInDf tasks.length tasks 0 hns (by simp),
    ?_, process_posts_go_last_not_paced out statusInDf tasks.length tasks 0 hns (by simp)⟩
  cases tasks with
  | nil => simp [process_posts, process_posts_go]
  | cons t rest =>
    by_cases hc : (statusInDf && isDoneSkipCell t.statusCell) = true <;>
      simp [process_posts, process_posts_go, hc]

/-- Witness for `c6_pacing_fires_n_minus_one` on a concrete list of three
tasks: exactly two pacing sleeps, neither first nor last. -/
theorem c6_pacing_fires_n_minus_one_witness :
    (process_posts (fun _ _ => AttemptOutcome.postSucceeds) false
        [⟨0, "u0".toList, "c0".toList, none⟩,
         ⟨1, "u1".toList, "c1".toList, none⟩,
         ⟨2, "u2".toList, "c2".toList, none⟩]).2.countP (· == PEvent.paced) = 2 ∧
    (process_posts (fun _ _ => AttemptOutcome.postSucceeds) false
        [⟨0, "u0".toList, "c0".toList, none⟩,
         ⟨1, "u1".toList, "c1".toList, none⟩,
         ⟨2, "u2".toList, "c2".toList, none⟩]).2.head? ≠ some PEvent.paced ∧
    (process_posts (fun _ _ => AttemptOutcome.postSucceeds) false
        [⟨0, "u0".toList, "c0".toList, none⟩,
         ⟨1, "u1".toList, "c1".toList, none⟩,
         ⟨2, "u2".toList, "c2".toList, none⟩]).2.getLast? ≠ some PEvent.paced :=
  c6_pacing_fires_n_minus_one (fun _ _ => AttemptOutcome.postSucceeds) false
    [⟨0, "u0".toList, "c0".toList, none⟩,
     ⟨1, "u1".toList, "c1".toList, none⟩,
     ⟨2, "u2".toList, "c2".toList, none⟩]
    (by intro t ht hs; simp at hs)

/-- A pandas data frame: a header row and data rows of optional cells. -/
structure Table where
  cols : List Str
  rows : List (List Cell)
deriving DecidableEq

/-- Pandas `pd.isna(df[c]).all()` for the column at raw index `j`. -/
def colAllNaN (t : Table) (j : Nat) : Bool :=
  t.rows.all (fun row => (row.getD j none).isNone)

/-- Python `str(c).startswith("Unnamed")`. -/
def isUnnamedCol (c : Str) : Bool := "Unnamed".toList.isPrefixOf c

/-- The working columns of `load_spreadsheet` lines 542-543: headers are
stripped, and all-NaN `Unnamed` columns are dropped; each retained column
keeps its index into the raw rows. -/
def workCols (t : Table) : List (Str × Nat) :=
  (t.cols.enum.map (fun p => (pyStrip p.2, p.1))).filter
    (fun p => !(isUnnamedCol p.1 && colAllNaN t p.2))

/-- Column lookup by (stripped) name in the working data frame. -/
def wlookup (wcols : List (Str × Nat)) (c : Str) : Option Nat :=
  (wcols.find? (fun p => p.1 == c)).map (fun p => p.2)

/-- Pandas `df.loc[r, c]` in the working data frame. -/
def wcell (t : Table) (wcols : List (Str × Nat)) (r : Nat) (c : Str) : Cell :=
  match wlookup wcols c with
  | none => none
  | some j => (t.rows.getD r []).getD j none

def urlSynonyms : List Str :=
  ["url".toList, "posturl".toList, "tweet_url".toList, "link".toList, "post_link".toList]

def commentSynonyms : List Str :=
  ["generated_comment".toList, "comment".toList, "reply".toList,
   "comment_text".toList, "generatedcomment".toList]

/-- Embedding of `XCommentBot._detect_column` (lines 344-361): collect candidates in
column order (synonym membership, else substring combinations) and return
the first. -/
def _detect_column (norm_cols raw_cols : List Str) (want : Str) : Option Str :=
  let candidates := (norm_cols.zip raw_cols).filterMap (fun p =>
    if want == "url".toList then
      if urlSynonyms.contains p.1 then some p.2
      else if hasSub "url".toList p.1
          && (hasSub "post".toList p.1 || hasSub "tweet".toList p.1 || p.1 == "url".toList)
        then some p.2 else none
    else if want == "comment".toList then
      if commentSynonyms.contains p.1 then some p.2
      else if hasSub "comment".toList p.1 || hasSub "reply".toList p.1
          || (hasSub "generated".toList p.1 && hasSub "comment".toList p.1)
        then some p.2 else none
    else none)
  candidates.head?

/-- The URL fallback scan of `load_spreadsheet` lines 555-559. -/
def urlFallback (raw_cols : List Str) : Option Str :=
  raw_cols.find? (fun raw =>
    ["posturl".toList, "tweet_url".toList, "url".toList, "link".toList].contains
      (_normalize raw))

/-- The comment fallback scan of `load_spreadsheet` lines 562-567. -/
def commentFallback (raw_cols : List Str) : Option Str :=
  raw_cols.find? (fun raw =>
    "generated_comment".toList.isPrefixOf (_normalize raw)
    || hasSub "comment".toList (_normalize raw)
    || hasSub "reply".toList (_normalize raw))

def statusCandidates : List Str :=
  ["commented_(y/n)".toList, "commented".toList, "done".toList,
   "posted".toList, "status".toList]

/-- The status-column scan of `load_spreadsheet` lines 602-607. -/
def statusDetect (norm_cols raw_cols : List Str) : Option Str :=
  ((norm_cols.zip raw_cols).find? (fun p => statusCandidates.contains p.1)).map
    (fun p => p.2)

/-- The optional author-column scan of `load_spreadsheet` lines 593-597. -/
def authorDetect (raw_cols : List Str) : Option Str :=
  raw_cols.find? (fun raw =>
    ["author".toList, "authorname".toList, "user".toList, "username".toList].contains
      (_normalize raw))

/-- Pandas `df[c] = ""` on a column absent from the frame: append the header and
fill every row with the empty string. -/
def addColumnEmpty (t : Table) (c : Str) : Table :=
  { cols := t.cols ++ [c], rows := t.rows.map (fun r => r ++ [some []]) }

/-- The standardized `df["URL"]` value of row `r` (line 583). -/
def urlValue (t : Table) (wcols : List (Str × Nat)) (url_col : Str) (r : Nat) : Str :=
  pyStrip (strCell (wcell t wcols r url_col))

/-- The standardized `df["generated_comment"]` value of row `r`
(lines 584-590). -/
def commentValue (t : Table) (wcols : List (Str × Nat)) (comment_col : Str) (r : Nat) : Str :=
  sanitize_comment_text (strCell (wcell t wcols r comment_col))

/-- The row-cleaning filter of lines 617-623 (the `dropna` on the two
standardized columns is a no-op because `astype(str)` leaves no NaN). -/
def rowEligible (t : Table) (wcols : List (Str × Nat)) (url_col comment_col : Str)
    (r : Nat) : Bool :=
  let u := urlValue t wcols url_col r
  let c := commentValue t wcols comment_col r
  !u.isEmpty && !c.isEmpty && !(lowerStr u == "nan".toList) && !(lowerStr c == "nan".toList)

inductive LoadError
  | fileNotFound
  | readError
  | schemaError
deriving DecidableEq

instance {e a : Type} [DecidableEq e] [DecidableEq a] : DecidableEq (Except e a) :=
  fun x y =>
    match x, y with
    | .ok u, .ok v => decidable_of_iff (u = v) (by simp)
    | .error u, .error v => decidable_of_iff (u = v) (by simp)
    | .ok _, .error _ => isFalse (by simp)
    | .error _, .ok _ => isFalse (by simp)

/-- The outcome of a successful `load_spreadsheet`: the retained
`original_df` (with the status column created when missing), the resolved
column mapping, whether the status column is among the working data
frame's columns, and the filtered task list. -/
structure LoadOk where
  original : Table
  url_col : Str
  comment_col : Str
  status_col : Str
  statusInDf : Bool
  tasks : List BotTask
deriving DecidableEq

/-- The resolved status column of `load_spreadsheet` (lines 602-613):
the first synonym match, else the literal `"Commented (Y/N)"`. -/
def loadStatusCol (norm_cols raw_cols : List Str) : Str :=
  (statusDetect norm_cols raw_cols).getD "Commented (Y/N)".toList

/-- The working data frame's full column list after the standardized
columns are added: working columns plus `URL`, `generated_comment`, and
`authorName` when an author-like column was detected. -/
def loadDfCols (raw_cols : List Str) : List Str :=
  (raw_cols ++ ["URL".toList, "generated_comment".toList])
    ++ (match authorDetect raw_cols with | some _ => ["authorName".toList] | none => [])

/-- The success branch of `load_spreadsheet` (lines 593-645) once the URL
and comment columns are resolved: detect or create the status column,
clean empty and `"nan"` rows, filter out already-commented rows, and build
the task list with original row indices. -/
def load_resolved (t : Table) (url_col comment_col : Str) : LoadOk :=
  let wcols := workCols t
  let raw_cols := wcols.map (fun p => p.1)
  let norm_cols := raw_cols.map _normalize
  let status0 := statusDetect norm_cols raw_cols
  let status_col := loadStatusCol norm_cols raw_cols
  let original := if status0.isNone && !(t.cols.contains status_col)
    then addColumnEmpty t status_col else t
  let statusInDf := (loadDfCols raw_cols).contains status_col
  let keptIdx := (List.range t.rows.length).filter (fun r =>
    rowEligible t wcols url_col comment_col r
    && (!statusInDf || !isDoneLoadCell (wcell t wcols r status_col)))
  { original := original
    url_col := url_col
    comment_col := comment_col
    status_col := status_col
    statusInDf := statusInDf
    tasks := keptIdx.map (fun r =>
      { rowIndex := r
        url := urlValue t wcols url_col r
        comment := commentValue t wcols comment_col r
        statusCell := wcell t wcols r status_col }) }

/-- Embedding of `XCommentBot.load_spreadsheet` (lines 402-645) for an already-parsed
table: strip headers and drop empty `Unnamed` columns, detect the URL and
comment columns (raising `ValueError` — here `LoadError.schemaError` —
when either is missing after primary detection plus fallback scans), then
resolve the rest via `load_resolved`. -/
def load_spreadsheet (t : Table) : Except LoadError LoadOk :=
  let wcols := workCols t
  let raw_cols := wcols.map (fun p => p.1)
  let norm_cols := raw_cols.map _normalize
  let url_detected := match _detect_column norm_cols raw_cols "url".toList with
    | some c => some c
    | none => urlFallback raw_cols
  let comment_detected := match _detect_column norm_cols raw_cols "comment".toList with
    | some c => some c
    | none => commentFallback raw_cols
  match url_detected, comment_detected with
  | some url_col, some comment_col => Except.ok (load_resolved t url_col comment_col)
  | _, _ => Except.error LoadError.schemaError

/-- Index of the first column with label `c` (pandas label lookup). -/
def colIndexOf (cols : List Str) (c : Str) : Option Nat :=
  match cols with
  | [] => none
  | x :: rest => if x == c then some 0 else (colIndexOf rest c).map (· + 1)

/-- Pandas `df.loc[r, c]` on a plain table (used to state what the persisted
document contains). -/
def getCellByName (t : Table) (r : Nat) (c : Str) : Cell :=
  match colIndexOf t.cols c with
  | none => none
  | some j => ((t.rows[r]?).bind (fun row => row[j]?)).join

/-- Embedding of `XCommentBot.update_excel_file` (lines 647-658), data part: ensure the
status column exists on the full unfiltered `original_df`, then write
`status` into that single cell at the task's original row index.  (The
pandas round trip through durable storage is modelled as the identity on
the table; the target-path/format logic of lines 660-677 is modelled
separately by `update_excel_write`.) -/
def update_excel_file (t : Table) (status_col : Str) (row_index : Nat)
    (status : Str) : Table :=
  let t2 := if t.cols.contains status_col then t else addColumnEmpty t status_col
  match colIndexOf t2.cols status_col, t2.rows[row_index]? with
  | some j, some row => { t2 with rows := t2.rows.set row_index (row.set j (some status)) }
  | _, _ => t2

theorem colIndexOf_lt_length (c : Str) :
    ∀ (cols : List Str) (j : Nat), colIndexOf cols c = some j → j < cols.length := by
  intro cols
  induction cols with
  | nil => intro j h; simp [colIndexOf] at h
  | cons x rest ih =>
    intro j h
    by_cases hx : (x == c) = true
    · simp [colIndexOf, hx] at h
      simp
      omega
    · simp only [colIndexOf, hx, Bool.false_eq_true, if_false, Option.map_eq_some'] at h
      rcases h with ⟨j', hj', rfl⟩
      have := ih j' hj'
      simp
      omega

theorem contains_colIndexOf (c : Str) :
    ∀ (cols : List Str), cols.contains c = true → ∃ j, colIndexOf cols c = some j := by
  intro cols
  induction cols with
  | nil => intro h; simp at h
  | cons x rest ih =>
    intro h
    by_cases hx : (x == c) = true
    · exact ⟨0, by simp [colIndexOf, hx]⟩
    · have hrest : rest.contains c = true := by
        simp only [List.contains_cons, Bool.or_eq_true] at h
        rcases h with h1 | h2
        · exfalso
          apply hx
          rw [beq_iff_eq] at h1 ⊢
          exact h1.symm
        · exact h2
      rcases ih hrest with ⟨j, hj⟩
      exact ⟨j + 1, by simp [colIndexOf, hx, hj]⟩

theorem colIndexOf_append_of_some (c : Str) :
    ∀ (l l2 : List Str) (j : Nat),
      colIndexOf l c = some j → colIndexOf (l ++ l2) c = some j := by
  intro l
  induction l with
  | nil => intro l2 j h; simp [colIndexOf] at h
  | cons x rest ih =>
    intro l2 j h
    by_cases hx : (x == c) = true
    · simp only [colIndexOf, hx, if_true, Option.some.injEq] at h
      simp only [List.cons_append, colIndexOf, hx, if_true]
      rw [h]
    · simp only [colIndexOf, hx, Bool.false_eq_true, if_false, Option.map_eq_some'] at h
      rcases h with ⟨j', hj', rfl⟩
      simp only [List.cons_append, colIndexOf, hx, Bool.false_eq_true, if_false]
      show Option.map (fun x => x + 1) (colIndexOf (rest ++ l2) c) = some (j' + 1)
      rw [ih l2 j' hj']
      rfl

theorem colIndexOf_append_self (c : Str) :
    ∀ (l : List Str), l.contains c = false → colIndexOf (l ++ [c]) c = some l.length := by
  intro l
  induction l with
  | nil => simp [colIndexOf]
  | cons x rest ih =>
    intro h
    rw [List.contains_cons] at h
    have hcx : (c == x) = false := by
      cases hc : (c == x)
      · rfl
      · rw [hc] at h
        simp at h
    have hrest : rest.contains c = false := by
      cases hr : rest.contains c
      · rfl
      · rw [hr] at h
        simp at h
    have hx : (x == c) = false := by
      cases hxe : (x == c)
      · rfl
      · exfalso
        rw [beq_iff_eq] at hxe
        rw [hxe] at hcx
        simp at hcx
    have hx' : ¬ ((x == c) = true) := by simp [hx]
    simp only [List.cons_append, colIndexOf, hx', Bool.false_eq_true, if_false]
    show Option.map (fun x => x + 1) (colIndexOf (rest ++ [c]) c) = some (rest.length + 1)
    rw [ih hrest]
    rfl

theorem set_append_length {α : Type} :
    ∀ (l : List α) (x v : α), (l ++ [x]).set l.length v = l ++ [v] := by
  intro l
  induction l with
  | nil => intro x v; rfl
  | cons a t ih =>
    intro x v
    simp only [List.cons_append, List.length_cons, List.set]
    show a :: (t ++ [x]).set t.length v = a :: (t ++ [v])
    rw [ih]

/-- Claim C4, counterexample: on a document whose status header carries
trailing padding (`"Commented (Y/N) "`), the loader resolves the stripped
name `"Commented (Y/N)"` (the original is copied before the headers are
stripped, line 539 vs 542), which is not literally among the document's
headers.  Persisting `"N"` for the task at row 1 then does not write into
the document's status column and does not leave everything else
unchanged: `update_excel_file` (line 654) appends a fresh column with the
stripped name and writes `"N"` there, while the document's real, padded
status column keeps its stale old value. -/
theorem c4_padded_header_counterexample :
    (load_spreadsheet
        ⟨["postUrl".toList, "comment".toList, "Commented (Y/N) ".toList],
         [[some "u0".toList, some "c0".toList, some "Y".toList],
          [some "u1".toList, some "c1".toList, some "".toList]]⟩).toOption.map
        LoadOk.status_col = some "Commented (Y/N)".toList ∧
    (load_spreadsheet
        ⟨["postUrl".toList, "comment".toList, "Commented (Y/N) ".toList],
         [[some "u0".toList, some "c0".toList, some "Y".toList],
          [some "u1".toList, some "c1".toList, some "".toList]]⟩).toOption.map
        (fun r => r.tasks.map BotTask.rowIndex) = some [1] ∧
    colIndexOf ["postUrl".toList, "comment".toList, "Commented (Y/N) ".toList]
      "Commented (Y/N)".toList = none ∧
    (update_excel_file
        ⟨["postUrl".toList, "comment".toList, "Commented (Y/N) ".toList],
         [[some "u0".toList, some "c0".toList, some "Y".toList],
          [some "u1".toList, some "c1".toList, some "".toList]]⟩
        "Commented (Y/N)".toList 1 "N".toList).cols
      ≠ ["postUrl".toList, "comment".toList, "Commented (Y/N) ".toList] ∧
    getCellByName
      (update_excel_file
        ⟨["postUrl".toList, "comment".toList, "Commented (Y/N) ".toList],
         [[some "u0".toList, some "c0".toList, some "Y".toList],
          [some "u1".toList, some "c1".toList, some "".toList]]⟩
        "Commented (Y/N)".toList 1 "N".toList) 1 "Commented (Y/N) ".toList
      = some "".toList ∧
    getCellByName
      (update_excel_file
        ⟨["postUrl".toList, "comment".toList, "Commented (Y/N) ".toList],
         [[some "u0".toList, some "c0".toList, some "Y".toList],
          [some "u1".toList, some "c1".toList, some "".toList]]⟩
        "Commented (Y/N)".toList 1 "N".toList) 1 "Commented (Y/N) ".toList
      ≠ some "N".toList ∧
    getCellByName
      (update_excel_file
        ⟨["postUrl".toList, "comment".toList, "Commented (Y/N) ".toList],
         [[some "u0".toList, some "c0".toList, some "Y".toList],
          [some "u1".toList, some "c1".toList, some "".toList]]⟩
        "Commented (Y/N)".toList 1 "N".toList) 1 "Commented (Y/N)".toList
      = some "N".toList := by
  refine ⟨by decide, by decide, by decide, by decide, by decide, by decide, by decide⟩

/-- Claim C4, amended: persisting an outcome writes the status string into
the column labelled by the resolved (stripped) status-column name of the
full, unfiltered document at the task's original row index.  When that
name is literally among the document's headers (the normal case, and
guaranteed when the loader synthesized the column), this is the document's
status column and nothing else changes: every other row is untouched and,
in row `i`, every column resolving differently from the status column is
untouched.  When the document's header matches the resolved name only up
to padding, the write instead appends a fresh column carrying the stripped
name (empty in every other row) and writes there, leaving every original
column — including the document's real, padded status column — with its
stale old values.  (Serialization and reloading are the identity on the
table in this model, so the reloaded document is the updated table.) -/
theorem c4_persist_status_frame (t : Table) (sc : Str) (i : Nat) (status : Str)
    (hi : i < t.rows.length)
    (hrect : ∀ row ∈ t.rows, row.length = t.cols.length) :
    (t.cols.contains sc = true →
      (update_excel_file t sc i status).cols = t.cols ∧
      (update_excel_file t sc i status).rows.length = t.rows.length ∧
      getCellByName (update_excel_file t sc i status) i sc = some status ∧
      (∀ j, j ≠ i → (update_excel_file t sc i status).rows[j]? = t.rows[j]?) ∧
      (∀ c, colIndexOf t.cols c ≠ colIndexOf t.cols sc →
        getCellByName (update_excel_file t sc i status) i c = getCellByName t i c)) ∧
    (t.cols.contains sc = false →
      (update_excel_file t sc i status).cols = t.cols ++ [sc] ∧
      (update_excel_file t sc i status).rows.length = t.rows.length ∧
      getCellByName (update_excel_file t sc i status) i sc = some status ∧
      (∀ j, j ≠ i → (update_excel_file t sc i status).rows[j]?
        = (t.rows[j]?).map (fun row => row ++ [some []])) ∧
      (∀ c j', colIndexOf t.cols c = some j' →
        getCellByName (update_excel_file t sc i status) i c = getCellByName t i c)) := by
  have hrow : t.rows[i]? = some t.rows[i] := List.getElem?_eq_getElem hi
  have hrowlen : (t.rows[i]).length = t.cols.length :=
    hrect _ (List.getElem_mem hi)
  constructor
  · intro hsc
    obtain ⟨j, hj⟩ := contains_colIndexOf sc t.cols hsc
    have hjl : j < t.cols.length := colIndexOf_lt_length sc t.cols j hj
    have hjr : j < (t.rows[i]).length := by omega
    have ht2 : update_excel_file t sc i status
        = { t with rows := t.rows.set i ((t.rows[i]).set j (some status)) } := by
      unfold update_excel_file
      simp only [hsc, if_true]
      rw [hj, hrow]
    refine ⟨by rw [ht2], by rw [ht2]; simp, ?_, ?_, ?_⟩
    · rw [ht2]
      unfold getCellByName
      simp only
      rw [hj]
      have hset : (t.rows.set i ((t.rows[i]).set j (some status)))[i]?
          = some ((t.rows[i]).set j (some status)) :=
        List.getElem?_set_eq_of_lt _ (by simpa using hi)
      rw [hset]
      simp [List.getElem?_set_eq_of_lt _ hjr]
    · intro k hk
      rw [ht2]
      simpa using List.getElem?_set_ne (fun he => hk he.symm)
    · intro c hc
      rw [ht2]
      unfold getCellByName
      simp only
      cases hcj : colIndexOf t.cols c with
      | none => rfl
      | some j' =>
        have hne : j' ≠ j := by
          intro he
          apply hc
          rw [hcj, hj, he]
        have hset : (t.rows.set i ((t.rows[i]).set j (some status)))[i]?
            = some ((t.rows[i]).set j (some status)) :=
          List.getElem?_set_eq_of_lt _ (by simpa using hi)
        rw [hset, hrow]
        simp [List.getElem?_set_ne (fun he => hne he.symm)]
  · intro hns
    have hcolidx : colIndexOf (t.cols ++ [sc]) sc = some t.cols.length :=
      colIndexOf_append_self sc t.cols hns
    have hWrow : (t.rows.map (fun r => r ++ [some []]))[i]?
        = some (t.rows[i] ++ [some []]) := by
      rw [List.getElem?_map, hrow]
      rfl
    have hsetrow : (t.rows[i] ++ [some []]).set t.cols.length (some status)
        = t.rows[i] ++ [some status] := by
      rw [← hrowlen]
      exact set_append_length _ _ _
    have ht2 : update_excel_file t sc i status
        = { cols := t.cols ++ [sc],
            rows := (t.rows.map (fun r => r ++ [some []])).set i
              (t.rows[i] ++ [some status]) } := by
      unfold update_excel_file addColumnEmpty
      simp only [hns, Bool.false_eq_true, if_false]
      rw [hcolidx, hWrow]
      simp only [hsetrow]
    have hWlen : (t.rows.map (fun r => r ++ [some []])).length = t.rows.length := by
      simp
    have hset : ((t.rows.map (fun r => r ++ [some []])).set i
          (t.rows[i] ++ [some status]))[i]?
        = some (t.rows[i] ++ [some status]) :=
      List.getElem?_set_eq_of_lt _ (by rw [hWlen]; simpa using hi)
    refine ⟨by rw [ht2], by rw [ht2]; simp, ?_, ?_, ?_⟩
    · rw [ht2]
      unfold getCellByName
      simp only
      rw [hcolidx, hset]
      simp only [Option.some_bind]
      rw [show (t.rows[i] ++ [some status])[t.cols.length]?
          = some (some status) from by
        rw [← hrowlen]
        exact List.getElem?_concat_length _ _]
      rfl
    · intro k hk
      rw [ht2]
      simp only
      rw [List.getElem?_set_ne (fun he => hk he.symm), List.getElem?_map]
    · intro c j' hcj
      have hj'l : j' < t.cols.length := colIndexOf_lt_length c t.cols j' hcj
      have hcj2 : colIndexOf (t.cols ++ [sc]) c = some j' :=
        colIndexOf_append_of_some c t.cols [sc] j' hcj
      rw [ht2]
      unfold getCellByName
      simp only
      rw [hcj2, hcj, hset, hrow]
      simp only [Option.some_bind]
      rw [show (t.rows[i] ++ [some status])[j']? = (t.rows[i])[j']? from by
        rw [List.getElem?_append, if_pos (by omega)]]

/-- Witness for `c4_persist_status_frame`: on a two-row document whose
status header is exactly the resolved name, persisting `"N"` into row 1
sets that cell, with row 0 and the URL cell of row 1 unchanged; on a
document with a padded status header, the write lands in the fresh
stripped-name column while the padded column of row 1 keeps its old
value. -/
theorem c4_persist_status_frame_witness :
    getCellByName
      (update_excel_file
        ⟨["postUrl".toList, "Commented (Y/N)".toList],
         [[some "u0".toList, some "Y".toList], [some "u1".toList, some "".toList]]⟩
        "Commented (Y/N)".toList 1 "N".toList) 1 "Commented (Y/N)".toList
      = some "N".toList ∧
    (update_excel_file
        ⟨["postUrl".toList, "Commented (Y/N)".toList],
         [[some "u0".toList, some "Y".toList], [some "u1".toList, some "".toList]]⟩
        "Commented (Y/N)".toList 1 "N".toList).rows[0]?
      = ([[some "u0".toList, some "Y".toList], [some "u1".toList, some "".toList]]
          : List (List Cell))[0]? ∧
    getCellByName
      (update_excel_file
        ⟨["postUrl".toList, "Commented (Y/N)".toList],
         [[some "u0".toList, some "Y".toList], [some "u1".toList, some "".toList]]⟩
        "Commented (Y/N)".toList 1 "N".toList) 1 "postUrl".toList
      = getCellByName
        ⟨["postUrl".toList, "Commented (Y/N)".toList],
         [[some "u0".toList, some "Y".toList], [some "u1".toList, some "".toList]]⟩
        1 "postUrl".toList ∧
    getCellByName
      (update_excel_file
        ⟨["postUrl".toList, "comment".toList, "Commented (Y/N) ".toList],
         [[some "u0".toList, some "c0".toList, some "Y".toList],
          [some "u1".toList, some "c1".toList, some "".toList]]⟩
        "Commented (Y/N)".toList 1 "N".toList) 1 "Commented (Y/N)".toList
      = some "N".toList ∧
    getCellByName
      (update_excel_file
        ⟨["postUrl".toList, "comment".toList, "Commented (Y/N) ".toList],
         [[some "u0".toList, some "c0".toList, some "Y".toList],
          [some "u1".toList, some "c1".toList, some "".toList]]⟩
        "Commented (Y/N)".toList 1 "N".toList) 1 "Commented (Y/N) ".toList
      = getCellByName
        ⟨["postUrl".toList, "comment".toList, "Commented (Y/N) ".toList],
         [[some "u0".toList, some "c0".toList, some "Y".toList],
          [some "u1".toList, some "c1".toList, some "".toList]]⟩
        1 "Commented (Y/N) ".toList := by
  have h := (c4_persist_status_frame
    ⟨["postUrl".toList, "Commented (Y/N)".toList],
     [[some "u0".toList, some "Y".toList], [some "u1".toList, some "".toList]]⟩
    "Commented (Y/N)".toList 1 "N".toList
    (by decide) (by decide)).1 (by decide)
  have h2 := (c4_persist_status_frame
    ⟨["postUrl".toList, "comment".toList, "Commented (Y/N) ".toList],
     [[some "u0".toList, some "c0".toList, some "Y".toList],
      [some "u1".toList, some "c1".toList, some "".toList]]⟩
    "Commented (Y/N)".toList 1 "N".toList
    (by decide) (by decide)).2 (by decide)
  exact ⟨h.2.2.1, h.2.2.2.1 0 (by decide), h.2.2.2.2 "postUrl".toList (by decide),
    h2.2.2.1, h2.2.2.2.2 "Commented (Y/N) ".toList 2 (by decide)⟩

theorem isPySpace_toUpperChar (c : Char) : isPySpace (toUpperChar c) = isPySpace c := by
  unfold toUpperChar
  split <;> rfl

theorem dropWhile_map_pySpace (f : Char → Char) (hf : ∀ c, isPySpace (f c) = isPySpace c) :
    ∀ l : Str, (l.map f).dropWhile isPySpace = (l.dropWhile isPySpace).map f := by
  intro l
  induction l with
  | nil => rfl
  | cons a t ih =>
    by_cases ha : isPySpace a = true
    · simp [List.dropWhile, hf, ha, ih]
    · simp only [Bool.not_eq_true] at ha
      simp [List.dropWhile, hf, ha]

theorem pyStrip_map_pres (f : Char → Char) (hf : ∀ c, isPySpace (f c) = isPySpace c)
    (l : Str) : pyStrip (l.map f) = (pyStrip l).map f := by
  unfold pyStrip lstrip rstrip
  rw [dropWhile_map_pySpace f hf l, ← List.map_reverse, dropWhile_map_pySpace f hf,
    List.map_reverse]

theorem isDoneSkipCell_eq_isDoneLoadCell (v : Cell) :
    isDoneSkipCell v = isDoneLoadCell v := by
  unfold isDoneSkipCell isDoneLoadCell upperStr
  rw [pyStrip_map_pres toUpperChar isPySpace_toUpperChar]

theorem wlookup_eq_none_of_not_contains (wcols : List (Str × Nat)) (sc : Str)
    (h : (wcols.map (fun p => p.1)).contains sc = false) : wlookup wcols sc = none := by
  unfold wlookup
  rw [List.find?_eq_none.2]
  · rfl
  · intro p hp hpe
    have hmem : p.1 ∈ wcols.map (fun p => p.1) := List.mem_map.2 ⟨p, hp, rfl⟩
    rw [beq_iff_eq] at hpe
    rw [hpe] at hmem
    have : (wcols.map (fun p => p.1)).contains sc = true := List.elem_eq_true_of_mem hmem
    rw [this] at h
    cases h

theorem load_resolved_tasks_not_done (t : Table) (u c : Str) :
    ∀ task ∈ (load_resolved t u c).tasks,
      task.statusCell
        = wcell t (workCols t) task.rowIndex (load_resolved t u c).status_col ∧
      task.rowIndex < t.rows.length ∧
      isDoneLoadCell task.statusCell = false := by
  intro task htask
  simp only [load_resolved] at htask ⊢
  rcases List.mem_map.1 htask with ⟨r, hr, rfl⟩
  rcases List.mem_filter.1 hr with ⟨hrange, hcond⟩
  refine ⟨rfl, by simpa using List.mem_range.1 hrange, ?_⟩
  by_cases hs : (loadDfCols ((workCols t).map (fun p => p.1))).contains
      (loadStatusCol (((workCols t).map (fun p => p.1)).map _normalize)
        ((workCols t).map (fun p => p.1))) = true
  · simp only [hs, Bool.not_true, Bool.false_or, Bool.and_eq_true] at hcond
    simpa using hcond.2
  · have hnraw : (((workCols t).map (fun p => p.1)).contains
        (loadStatusCol (((workCols t).map (fun p => p.1)).map _normalize)
          ((workCols t).map (fun p => p.1)))) = false := by
      cases hc : ((workCols t).map (fun p => p.1)).contains
          (loadStatusCol (((workCols t).map (fun p => p.1)).map _normalize)
            ((workCols t).map (fun p => p.1))) with
      | false => rfl
      | true =>
        exfalso
        apply hs
        have hmem := List.mem_of_elem_eq_true hc
        refine List.elem_eq_true_of_mem ?_
        unfold loadDfCols
        exact List.mem_append.2 (Or.inl (List.mem_append.2 (Or.inl hmem)))
    have hnone := wlookup_eq_none_of_not_contains (workCols t) _ hnraw
    simp only [wcell, hnone]
    decide

/-- The success notion for one task written from the spec's words: some
attempt within the retry bound posts successfully. -/
def taskSucceedsSpec (out : Nat → AttemptOutcome) : Bool :=
  (List.range max_retries).any (fun k => out k == AttemptOutcome.postSucceeds)

theorem attemptLoop_success_iff (out : Nat → AttemptOutcome) :
    ∀ (fuel attempt : Nat) (res : SingleResult), res.status = "failed".toList →
      ((attemptLoop out attempt fuel res).1.status = "success".toList ↔
        ∃ j, j < fuel ∧ out (attempt + j) = .postSucceeds) := by
  intro fuel
  induction fuel with
  | zero =>
    intro attempt res hres
    simp only [attemptLoop, hres]
    constructor
    · intro h
      exact absurd h (by decide)
    · rintro ⟨j, hj, _⟩
      omega
  | succ n ih =>
    intro attempt res hres
    unfold attemptLoop
    cases hout : out attempt with
    | postSucceeds =>
      simp only
      constructor
      · intro _
        exact ⟨0, by omega, by simpa using hout⟩
      · intro _
        trivial
    | postFails =>
      simp only
      rw [ih (attempt + 1) _ (by simpa using hres)]
      constructor
      · rintro ⟨j, hj, hjs⟩
        exact ⟨j + 1, by omega, by rwa [show attempt + (j + 1) = attempt + 1 + j by omega]⟩
      · rintro ⟨j, hj, hjs⟩
        cases j with
        | zero =>
          rw [Nat.add_zero, hout] at hjs
          cases hjs
        | succ j' =>
          exact ⟨j', by omega, by rwa [show attempt + 1 + j' = attempt + (j' + 1) by omega]⟩
    | raises m =>
      by_cases hlt : attempt < max_retries - 1 <;>
        · simp only [hlt, if_true, if_false]
          rw [ih (attempt + 1) _ (by simpa using hres)]
          constructor
          · rintro ⟨j, hj, hjs⟩
            exact ⟨j + 1, by omega, by rwa [show attempt + (j + 1) = attempt + 1 + j by omega]⟩
          · rintro ⟨j, hj, hjs⟩
            cases j with
            | zero =>
              rw [Nat.add_zero, hout] at hjs
              cases hjs
            | succ j' =>
              exact ⟨j', by omega,
                by rwa [show attempt + 1 + j' = attempt + (j' + 1) by omega]⟩

theorem psp_status_eq_taskSucceedsSpec (out : Nat → AttemptOutcome) (url c : Str)
    (n i : Nat) :
    ((process_single_post out url c n i).1.status == "success".toList)
      = taskSucceedsSpec out := by
  apply Bool.coe_iff_coe.1
  rw [beq_iff_eq]
  have h := attemptLoop_success_iff out max_retries 0 (initialResult url c n i) rfl
  unfold process_single_post
  rw [h]
  unfold taskSucceedsSpec
  simp [List.any_eq_true, List.mem_range, beq_iff_eq]

theorem process_posts_go_any_success (out : Nat → Nat → AttemptOutcome)
    (statusInDf : Bool) (total : Nat) :
    ∀ (tasks : List BotTask) (rc : Nat),
      (∀ t ∈ tasks, statusInDf = true → isDoneSkipCell t.statusCell = false) →
      (process_posts_go out statusInDf total tasks rc).1.any
          (fun r => r.status == "success".toList)
        = tasks.any (fun t => taskSucceedsSpec (out t.rowIndex)) := by
  intro tasks
  induction tasks with
  | nil => intro rc _; simp [process_posts_go]
  | cons t rest ih =>
    intro rc hns
    have hcond : (statusInDf && isDoneSkipCell t.statusCell) = false := by
      cases hs : statusInDf with
      | false => simp
      | true => simp [hns t (by simp) hs]
    simp only [process_posts_go, hcond, Bool.false_eq_true, if_false, List.any_cons]
    rw [ih (rc + 1) (fun x hx hs => hns x (by simp [hx]) hs),
      psp_status_eq_taskSucceedsSpec]

/-- Observable events of `XCommentBot.run` in source order. -/
inductive REvent
  | browserLaunch
  | navigateLogin
  | loginConfirmed
  | loginFailed
  | fileError
  | schemaFailed
  | schemaResolved
  | reportDone
deriving DecidableEq

/-- The environment a run executes against: whether the manual login is
confirmed in time, whether the input file exists and parses, the parsed
table, and the interaction outcome of every attempt (indexed by original
row index and attempt number). -/
structure RunEnv where
  loginOk : Bool
  fileExists : Bool
  parseOk : Bool
  table : Table
  attempts : Nat → Nat → AttemptOutcome

/-- The fallible part of `load_spreadsheet` before schema resolution: a
missing file raises `FileNotFoundError` (line 492), an unparseable file
raises `ValueError` (line 536); otherwise the parsed table is resolved. -/
def load_input (env : RunEnv) : Except LoadError LoadOk :=
  if env.fileExists = false then Except.error LoadError.fileNotFound
  else if env.parseOk = false then Except.error LoadError.readError
  else load_spreadsheet env.table

/-- Embedding of `XCommentBot.run` (lines 991-1032): set up the browser, navigate to
the login page, wait for manual login (exit 2 on failure), load the
spreadsheet (exit 1 on `FileNotFoundError` or any other exception,
including the schema `ValueError`), exit 4 on an empty task list, then
process all tasks and exit 0 if any result succeeded, else 3.  Returns
the event trace and the exit code. -/
def run (env : RunEnv) : List REvent × Nat :=
  if env.loginOk = false then
    ([REvent.browserLaunch, REvent.navigateLogin, REvent.loginFailed], 2)
  else
    match load_input env with
    | Except.error LoadError.fileNotFound =>
      ([REvent.browserLaunch, REvent.navigateLogin, REvent.loginConfirmed,
        REvent.fileError], 1)
    | Except.error LoadError.readError =>
      ([REvent.browserLaunch, REvent.navigateLogin, REvent.loginConfirmed,
        REvent.fileError], 1)
    | Except.error LoadError.schemaError =>
      ([REvent.browserLaunch, REvent.navigateLogin, REvent.loginConfirmed,
        REvent.schemaFailed], 1)
    | Except.ok res =>
      if res.tasks.length = 0 then
        ([REvent.browserLaunch, REvent.navigateLogin, REvent.loginConfirmed,
          REvent.schemaResolved], 4)
      else
        let results := (process_posts env.attempts res.statusInDf res.tasks).1
        ([REvent.browserLaunch, REvent.navigateLogin, REvent.loginConfirmed,
          REvent.schemaResolved, REvent.reportDone],
          if results.any (fun r => r.status == "success".toList) then 0 else 3)

/-- The event trace of a run. -/
def runEvents (env : RunEnv) : List REvent := (run env).1

/-- The exit code of a run. -/
def runExit (env : RunEnv) : Nat := (run env).2

/-- The exit-code table written from the spec's words (§6): 0 = at least
one success; 1 = fatal/file error; 2 = login not confirmed within
timeout; 3 = completed with zero successes; 4 = no eligible rows found. -/
def exit_code_spec (env : RunEnv) : Nat :=
  if env.loginOk = false then 2
  else
    match load_input env with
    | Except.error _ => 1
    | Except.ok res =>
      if res.tasks.length = 0 then 4
      else if res.tasks.any (fun t => taskSucceedsSpec (env.attempts t.rowIndex)) then 0
      else 3

theorem load_input_ok_spreadsheet (env : RunEnv) (res : LoadOk)
    (h : load_input env = Except.ok res) : load_spreadsheet env.table = Except.ok res := by
  unfold load_input at h
  by_cases hf : env.fileExists = false
  · rw [if_pos hf] at h
    cases h
  · rw [if_neg hf] at h
    by_cases hp : env.parseOk = false
    · rw [if_pos hp] at h
      cases h
    · rwa [if_neg hp] at h

theorem load_spreadsheet_ok_no_skip (t : Table) (res : LoadOk)
    (h : load_spreadsheet t = Except.ok res) :
    ∀ task ∈ res.tasks, isDoneSkipCell task.statusCell = false := by
  intro task htask
  simp only [load_spreadsheet] at h
  split at h
  · rename_i url_col comment_col heq1 heq2
    have hres : res = load_resolved t url_col comment_col := by
      cases h
      rfl
    rw [hres] at htask
    rw [isDoneSkipCell_eq_isDoneLoadCell]
    exact (load_resolved_tasks_not_done t url_col comment_col task htask).2.2
  · cases h

/-- Claim C2: the run's exit code is exactly the spec's table — 2 when
login is not confirmed, 1 on a file/fatal load error, 4 when no eligible
rows were found, 0 when at least one task's attempt result is a success,
3 when processing completed with zero successes. -/
theorem c2_exit_codes (env : RunEnv) : runExit env = exit_code_spec env := by
  unfold runExit run exit_code_spec
  by_cases hl : env.loginOk = false
  · simp [hl]
  · simp only [hl, Bool.false_eq_true, if_false]
    cases hld : load_input env with
    | error e => cases e <;> simp
    | ok res =>
      simp only
      by_cases hempty : res.tasks.length = 0
      · simp [hempty]
      · simp only [hempty, if_false]
        have hns := load_spreadsheet_ok_no_skip env.table res
          (load_input_ok_spreadsheet env res hld)
        rw [show (process_posts env.attempts res.statusInDf res.tasks).1.any
              (fun r => r.status == "success".toList)
            = res.tasks.any (fun t => taskSucceedsSpec (env.attempts t.rowIndex)) from
          process_posts_go_any_success env.attempts res.statusInDf res.tasks.length
            res.tasks 0 (fun t ht _ => hns t ht)]
        simp

/-- Claim C3: every row whose status value (after case-raising and
trimming) is one of Y/YES/TRUE/1 is excluded from the task list, and a
document in which every row is so marked yields an empty task list and
exit code 4. -/
theorem c3_done_rows_excluded (t : Table) (res : LoadOk)
    (hload : load_spreadsheet t = Except.ok res) :
    (∀ task ∈ res.tasks,
      isDoneLoadCell (wcell t (workCols t) task.rowIndex res.status_col) = false) ∧
    ((∀ r, r < t.rows.length →
        isDoneLoadCell (wcell t (workCols t) r res.status_col) = true) →
      res.tasks = [] ∧
      ∀ att : Nat → Nat → AttemptOutcome,
        runExit ⟨true, true, true, t, att⟩ = 4) := by
  have hkey : ∀ task ∈ res.tasks,
      task.statusCell = wcell t (workCols t) task.rowIndex res.status_col ∧
      task.rowIndex < t.rows.length ∧
      isDoneLoadCell task.statusCell = false := by
    have h := hload
    simp only [load_spreadsheet] at h
    split at h
    · rename_i url_col comment_col heq1 heq2
      have hres : res = load_resolved t url_col comment_col := by
        cases h
        rfl
      rw [hres]
      exact load_resolved_tasks_not_done t url_col comment_col
    · cases h
  have hpart1 : ∀ task ∈ res.tasks,
      isDoneLoadCell (wcell t (workCols t) task.rowIndex res.status_col) = false := by
    intro task htask
    have hk := hkey task htask
    rw [← hk.1]
    exact hk.2.2
  refine ⟨hpart1, ?_⟩
  intro hall
  have hempty : res.tasks = [] := by
    rw [List.eq_nil_iff_forall_not_mem]
    intro task htask
    have hk := hkey task htask
    have hdone := hall task.rowIndex hk.2.1
    rw [← hk.1] at hdone
    rw [hk.2.2] at hdone
    cases hdone
  refine ⟨hempty, ?_⟩
  intro att
  unfold runExit run load_input
  simp [hload, hempty]

/-- Witness for `c3_done_rows_excluded` on a concrete three-column table
whose two rows are both marked complete (`"Y"` and `" true "`): the task
list is empty and the run exits with code 4. -/
theorem c3_done_rows_excluded_witness :
    (load_resolved
        ⟨["postUrl".toList, "comment".toList, "status".toList],
         [[some "u1".toList, some "c1".toList, some "Y".toList],
          [some "u2".toList, some "c2".toList, some " true ".toList]]⟩
        "postUrl".toList "comment".toList).tasks = [] ∧
    runExit ⟨true, true, true,
      ⟨["postUrl".toList, "comment".toList, "status".toList],
       [[some "u1".toList, some "c1".toList, some "Y".toList],
        [some "u2".toList, some "c2".toList, some " true ".toList]]⟩,
      fun _ _ => AttemptOutcome.postFails⟩ = 4 := by
  have h := c3_done_rows_excluded
    ⟨["postUrl".toList, "comment".toList, "status".toList],
     [[some "u1".toList, some "c1".toList, some "Y".toList],
      [some "u2".toList, some "c2".toList, some " true ".toList]]⟩
    (load_resolved
      ⟨["postUrl".toList, "comment".toList, "status".toList],
       [[some "u1".toList, some "c1".toList, some "Y".toList],
        [some "u2".toList, some "c2".toList, some " true ".toList]]⟩
      "postUrl".toList "comment".toList)
    (by decide)
  have h2 := h.2 (by decide)
  exact ⟨h2.1, h2.2 (fun _ _ => AttemptOutcome.postFails)⟩

/-- A run environment whose table has no URL-like or comment-like column,
so schema resolution fails. -/
def c1Env : RunEnv :=
  ⟨true, true, true, ⟨["foo".toList], []⟩, fun _ _ => AttemptOutcome.postFails⟩

/-- Claim C1, counterexample: in a run whose schema resolution fails
(`SchemaError`), the event trace nevertheless contains the browser launch
— in fact it begins with it, because `run` sets up the Chrome driver and
waits for login before `load_spreadsheet` is ever called — and the run
aborts with exit code 1 only after the browser was launched. -/
theorem c1_schema_after_launch_counterexample :
    load_input c1Env = Except.error LoadError.schemaError ∧
    runEvents c1Env = [REvent.browserLaunch, REvent.navigateLogin,
      REvent.loginConfirmed, REvent.schemaFailed] ∧
    REvent.browserLaunch ∈ runEvents c1Env ∧
    runExit c1Env = 1 := by
  refine ⟨by decide, by decide, by decide, by decide⟩

/-- Claim C1, amended: on every run the browser session is started (and
the login step reached) before the schema is resolved — the trace always
begins with the browser launch and navigation to the login page, any
schema event implies login was confirmed first — and a `SchemaError`
aborts the run with exit code 1 after the browser launch, not before. -/
theorem c1_browser_precedes_schema (env : RunEnv) :
    (runEvents env).take 2 = [REvent.browserLaunch, REvent.navigateLogin] ∧
    ((REvent.schemaResolved ∈ runEvents env ∨ REvent.schemaFailed ∈ runEvents env) →
      env.loginOk = true) ∧
    (env.loginOk = true → load_input env = Except.error LoadError.schemaError →
      runExit env = 1 ∧ REvent.browserLaunch ∈ runEvents env) := by
  unfold runEvents runExit run
  by_cases hl : env.loginOk = false
  · refine ⟨by simp [hl], ?_, ?_⟩
    · intro hmem
      rw [if_pos hl] at hmem
      simp at hmem
    · intro ht _
      rw [hl] at ht
      cases ht
  · have hl' : env.loginOk = true := by
      cases h : env.loginOk
      · exact absurd h hl
      · rfl
    rw [if_neg hl]
    cases hld : load_input env with
    | error e =>
      cases e with
      | fileNotFound =>
        refine ⟨by simp, fun _ => hl', ?_⟩
        intro _ hsc
        simp at hsc
      | readError =>
        refine ⟨by simp, fun _ => hl', ?_⟩
        intro _ hsc
        simp at hsc
      | schemaError =>
        exact ⟨by simp, fun _ => hl', fun _ _ => ⟨rfl, by simp⟩⟩
    | ok res =>
      refine ⟨?_, fun _ => hl', ?_⟩
      · by_cases hempty : res.tasks.length = 0 <;> simp [hempty]
      · intro _ hsc
        simp at hsc

/-- Witness for `c1_browser_precedes_schema` at the schema-failing
environment `c1Env`. -/
theorem c1_browser_precedes_schema_witness :
    (runEvents c1Env).take 2 = [REvent.browserLaunch, REvent.navigateLogin] ∧
    runExit c1Env = 1 ∧ REvent.browserLaunch ∈ runEvents c1Env := by
  have h := c1_browser_precedes_schema c1Env
  exact ⟨h.1, (h.2.2 (by decide) (by decide)).1, (h.2.2 (by decide) (by decide)).2⟩

/-- Python `Path(p).suffix.lower()` for the bare file names this program builds:
the final dot-extension when a dot is present, lowercased. -/
def fileExt (p : Str) : Str :=
  if '.' ∈ p then lowerStr ('.' :: (p.reverse.takeWhile (fun c => c != '.')).reverse)
  else []

/-- The two serialization formats. -/
inductive FileFormat
  | csv
  | excel
deriving DecidableEq

/-- The serialization choice of `update_excel_file` lines 663-668:
`to_csv` when the target's extension is `".csv"`, else `to_excel`. -/
def writeFormatFor (path : Str) : FileFormat :=
  if fileExt path == ".csv".toList then FileFormat.csv else FileFormat.excel

/-- A generated output name `processed_<timestamp>.xlsx` (line 660 for the
default target, line 672 for the fallback target). -/
def processedXlsxName (ts : Str) : Str :=
  ("processed_".toList ++ ts) ++ ".xlsx".toList

/-- The persistence target/format logic of `update_excel_file`
(lines 660-677): write the whole document to the resolved sheet path (or a
generated default) in the format matching that path's extension; on an
`OSError`/`PermissionError` write the document to a fresh timestamped
`.xlsx` with `to_excel` and move the sheet path there; if that write also
fails the outer handler swallows the exception, nothing is written and
the sheet path is unchanged — the run never aborts.  Returns the
performed write (path and format, if any) and the new sheet path. -/
def update_excel_write (sheet_path : Option Str) (tsNow tsFallback : Str)
    (writeFails : Str → Bool) : Option (Str × FileFormat) × Option Str :=
  let out_path := sheet_path.getD (processedXlsxName tsNow)
  if writeFails out_path then
    let alt := processedXlsxName tsFallback
    if writeFails alt then (none, sheet_path)
    else (some (alt, FileFormat.excel), some alt)
  else (some (out_path, writeFormatFor out_path), sheet_path)

theorem fileExt_processedXlsxName (ts : Str) :
    fileExt (processedXlsxName ts) = ".xlsx".toList := by
  unfold processedXlsxName fileExt
  rw [if_pos (by simp)]
  have hrev : (("processed_".toList ++ ts) ++ ".xlsx".toList).reverse
      = 'x' :: 's' :: 'l' :: 'x' :: '.' :: (ts.reverse ++ "processed_".toList.reverse) := by
    simp
  rw [hrev]
  simp only [List.takeWhile, lowerStr]
  simp [List.takeWhile]
  decide

theorem writeFormatFor_processedXlsxName (ts : Str) :
    writeFormatFor (processedXlsxName ts) = FileFormat.excel := by
  unfold writeFormatFor
  rw [fileExt_processedXlsxName]
  decide

/-- Claim C7, counterexample: with a delimited-text input (`input.csv`)
whose primary write fails, the fallback write — and every subsequent write
target — is a timestamped `.xlsx` written as a spreadsheet, so the
persisted format no longer mirrors the input format. -/
theorem c7_fallback_format_counterexample :
    update_excel_write (some "input.csv".toList) "1".toList "2".toList
        (fun p => p == "input.csv".toList)
      = (some (processedXlsxName "2".toList, FileFormat.excel),
          some (processedXlsxName "2".toList)) ∧
    writeFormatFor "input.csv".toList = FileFormat.csv ∧
    FileFormat.excel ≠ FileFormat.csv := by
  refine ⟨by decide, by decide, by decide⟩

/-- Claim C7, amended: while writes to the resolved target succeed, the
serialization format mirrors that target's extension (delimited text in,
delimited text out; spreadsheet in, spreadsheet out); after a write
failure the layer switches to a timestamped fallback that is always an
`.xlsx` spreadsheet — even for delimited-text input — and continues
subsequent writes there; and a write failure never aborts the run: when
even the fallback write fails, the exception is swallowed, nothing is
written and the sheet path is unchanged. -/
theorem c7_persist_target_and_format (sp : Option Str) (tsNow tsFallback : Str)
    (wf : Str → Bool) :
    (wf (sp.getD (processedXlsxName tsNow)) = false →
      update_excel_write sp tsNow tsFallback wf
        = (some (sp.getD (processedXlsxName tsNow),
            writeFormatFor (sp.getD (processedXlsxName tsNow))), sp)) ∧
    (wf (sp.getD (processedXlsxName tsNow)) = true →
      wf (processedXlsxName tsFallback) = false →
      update_excel_write sp tsNow tsFallback wf
        = (some (processedXlsxName tsFallback, FileFormat.excel),
            some (processedXlsxName tsFallback)) ∧
      writeFormatFor (processedXlsxName tsFallback) = FileFormat.excel) ∧
    (wf (sp.getD (processedXlsxName tsNow)) = true →
      wf (processedXlsxName tsFallback) = true →
      update_excel_write sp tsNow tsFallback wf = (none, sp)) := by
  refine ⟨?_, ?_, ?_⟩
  · intro h
    simp [update_excel_write, h]
  · intro h1 h2
    exact ⟨by simp [update_excel_write, h1, h2],
      writeFormatFor_processedXlsxName tsFallback⟩
  · intro h1 h2
    simp [update_excel_write, h1, h2]

/-- Witness for `c7_persist_target_and_format`: a CSV sheet path with a
succeeding write, a failing primary write with working fallback, and a
doubly failing write. -/
theorem c7_persist_target_and_format_witness :
    (update_excel_write (some "input.csv".toList) "1".toList "2".toList (fun _ => false)
      = (some ("input.csv".toList, writeFormatFor "input.csv".toList),
          some "input.csv".toList)) ∧
    (update_excel_write (some "input.csv".toList) "1".toList "2".toList
        (fun p => p == "input.csv".toList)
      = (some (processedXlsxName "2".toList, FileFormat.excel),
          some (processedXlsxName "2".toList))) ∧
    (update_excel_write (some "input.csv".toList) "1".toList "2".toList (fun _ => true)
      = (none, some "input.csv".toList)) := by
  refine ⟨?_, ?_, ?_⟩
  · exact (c7_persist_target_and_format (some "input.csv".toList) "1".toList "2".toList
      (fun _ => false)).1 rfl
  · exact ((c7_persist_target_and_format (some "input.csv".toList) "1".toList "2".toList
      (fun p => p == "input.csv".toList)).2.1 (by decide) (by decide)).1
  · exact (c7_persist_target_and_format (some "input.csv".toList) "1".toList "2".toList
      (fun _ => true)).2.2 rfl rfl
